import Mathlib

/-!
Shallow embedding of the scrobbler tool (`src/index.ts`) and verification of
its specification claims.

The embedding models:
* `Clean` — the control-character-stripping normalizer;
* `fetchTracks` — the catalog lookup loop over the four album-title encoding
  candidates (the JS builtins `encodeURIComponent`, `encodeURI`,
  `String.prototype.normalize` are environment functions, passed in as a
  `JsEnv` record);
* `scrobbleInterpret` — the submission client's response interpretation
  (HTTP error / daily-limit error / raw body);
* `buildScrobbleBody` — the per-attempt form body with `now + index`
  timestamps;
* `stepMain` / `runMain` — the retry controller loop of `Main`, driven by a
  finite trace of submission results.
-/

/-! ## String helpers (JS semantics) -/

/-- Characters matched by the regex `[\x00-\x1F\x7F]` in `Clean`. -/
def isCtlChar (c : Char) : Bool :=
  c.toNat ≤ 0x1F || c.toNat == 0x7F

/-- The source function `Clean`: `Title.replace(/[\x00-\x1F\x7F]/g, '')`. -/
def Clean (Title : String) : String :=
  String.mk (Title.data.filter (fun c => !isCtlChar c))

/-- Substring search on character lists: JS `String.prototype.includes`. -/
def hasSubList (sub : List Char) : List Char → Bool
  | [] => sub.isEmpty
  | c :: t => sub.isPrefixOf (c :: t) || hasSubList sub t

/-- JS `s.includes(sub)`. -/
def strIncludes (s sub : String) : Bool :=
  hasSubList sub.data s.data

/-- JS optional chaining `m?.includes(sub)` used as a boolean condition:
`undefined` is falsy. -/
def optIncludes (m : Option String) (sub : String) : Bool :=
  match m with
  | none => false
  | some s => strIncludes s sub

/-- Whitespace skipped by JS `parseInt` (ASCII portion). -/
def isJsSpace (c : Char) : Bool :=
  c == ' ' || c == '\t' || c == '\n' || c == '\r' || c.toNat == 11 || c.toNat == 12

/-- Numeric value of a list of decimal digit characters. -/
def digitsVal (l : List Char) : Nat :=
  l.foldl (fun acc c => acc * 10 + (c.toNat - 48)) 0

/-- JS `parseInt(s, 10)`: skip leading whitespace, optional sign, longest
leading digit run; `none` models `NaN`. -/
def parseIntJS (s : String) : Option Int :=
  let l := s.data.dropWhile isJsSpace
  let signRest : Int × List Char :=
    match l with
    | '-' :: t => (-1, t)
    | '+' :: t => (1, t)
    | t => (1, t)
  let digits := signRest.2.takeWhile (fun c => c.isDigit)
  if digits.isEmpty then none
  else some (signRest.1 * (digitsVal digits : Int))

/-! ## Data model (TS interfaces `Track`, `AlbumData`, `ScrobbleResponse`) -/

/-- Source `interface Track { name: string }`. -/
structure Track where
  name : String
deriving Repr, DecidableEq

/-- The `track` field of `AlbumData`: `Track | Track[]`. -/
inductive TrackField where
  | single (t : Track)
  | array (ts : List Track)
deriving Repr, DecidableEq

/-- The `tracks` object inside `AlbumData.album`. -/
structure TracksObj where
  track : Option TrackField
deriving Repr, DecidableEq

/-- The `album` object inside `AlbumData`. -/
structure AlbumObj where
  tracks : Option TracksObj
deriving Repr, DecidableEq

/-- Source `interface AlbumData` (decoded catalog response body). -/
structure AlbumData where
  album : Option AlbumObj
deriving Repr, DecidableEq

/-- The `@attr` object of a scrobble response. -/
structure AttrObj where
  accepted : String
deriving Repr, DecidableEq

/-- The `scrobbles` object of a scrobble response. -/
structure ScrobblesObj where
  attr : AttrObj
deriving Repr, DecidableEq

/-- Source `interface ScrobbleResponse`. -/
structure ScrobbleResponse where
  scrobbles : Option ScrobblesObj
  error : Option Int
  message : Option String
deriving Repr, DecidableEq

/-! ## Catalog lookup (`Fetch`) -/

/-- One catalog HTTP exchange as observed by `Fetch`: the request may throw
(network error), or return a response with an `ok` flag and a body that
either JSON-decodes (`some`) or throws on `.json()` (`none`). -/
inductive CatalogResponse where
  | networkError
  | response (ok : Bool) (body : Option AlbumData)
deriving Repr

/-- The JS environment functions used by `Fetch` to build the candidate
encodings. They are builtins of the runtime, not code of this repository,
so the embedding abstracts them as an injected record. -/
structure JsEnv where
  encodeURIComponent : String → String
  normalizeNFC : String → String
  normalizeNFKC : String → String
  encodeURI : String → String

/-- The `Variants` array of `Fetch`, in source order. -/
def candVariants (env : JsEnv) (Album : String) : List String :=
  [env.encodeURIComponent (Clean Album),
   env.encodeURIComponent (env.normalizeNFC (Clean Album)),
   env.encodeURIComponent (env.normalizeNFKC (Clean Album)),
   env.encodeURI (Clean Album)]

/-- One iteration of the candidate loop in `Fetch`: `some ts` when the
candidate is accepted (the code returns), `none` when the loop continues.
Mirrors: network/json throw → `continue`; `!Response.ok` → `continue`;
`Data.album?.tracks?.track` falsy (absent) → fall through; otherwise return
`Array.isArray(Track) ? Track : [Track]`.  Note that a present but empty
array is truthy in JS and is returned as-is. -/
def tryCandidate (resp : CatalogResponse) : Option (List Track) :=
  match resp with
  | .networkError => none
  | .response ok body =>
    if !ok then none
    else
      match body with
      | none => none
      | some d =>
        match d.album with
        | none => none
        | some a =>
          match a.tracks with
          | none => none
          | some tr =>
            match tr.track with
            | none => none
            | some (.single t) => some [t]
            | some (.array ts) => some ts

/-- The candidate loop of `Fetch`. The catalog is a function from the
(encoded artist, encoded album) request to its `CatalogResponse`; the second
component of the result records the album encodings actually requested, in
order. -/
def fetchGo (catalog : String → String → CatalogResponse) (artistEnc : String) :
    List String → Except String (List Track) × List String
  | [] => (.error "Album or tracks not found", [])
  | v :: vs =>
    match tryCandidate (catalog artistEnc v) with
    | some ts => (.ok ts, [v])
    | none =>
      let out := fetchGo catalog artistEnc vs
      (out.1, v :: out.2)

/-- Model of `Fetch(Artist, Album)`: try the four candidate encodings in order. -/
def fetchTracks (env : JsEnv) (catalog : String → String → CatalogResponse)
    (Artist Album : String) : Except String (List Track) × List String :=
  fetchGo catalog (env.encodeURIComponent Artist) (candVariants env Album)

/-! ## Submission client (`Scrobble`) -/

/-- One `Body.append(name, value)` entry of the url-encoded form. -/
structure FormField where
  name : String
  value : String
deriving Repr, DecidableEq

/-- The `Tracks.forEach((TrackItem, Index) => ...)` body builder, carrying
the running index. -/
def scrobbleFieldsGo (Artist Album : String) (Now : Nat) :
    Nat → List Track → List FormField
  | _, [] => []
  | i, t :: ts =>
    ⟨"artist[" ++ toString i ++ "]", Artist⟩ ::
    ⟨"track[" ++ toString i ++ "]", t.name⟩ ::
    ⟨"album[" ++ toString i ++ "]", Album⟩ ::
    ⟨"timestamp[" ++ toString i ++ "]", toString (Now + i)⟩ ::
    scrobbleFieldsGo Artist Album Now (i + 1) ts

/-- The full form body built by `Scrobble` for one attempt. -/
def buildScrobbleBody (Artist Album : String) (Tracks : List Track)
    (Now : Nat) : List FormField :=
  scrobbleFieldsGo Artist Album Now 0 Tracks

/-- The timestamps assigned to the batch, in track order: `Now + Index`. -/
def batchTimestamps (Now : Nat) (n : Nat) : List Nat :=
  (List.range n).map (fun i => Now + i)

/-- undici `Response.ok`: status in the range [200, 300). -/
def respOk (status : Nat) : Bool :=
  200 ≤ status && status < 300

/-- The message of the error thrown on a non-ok response:
`Scrobble request failed: ${status} ${statusText}`. -/
def scrobbleHttpMsg (status : Nat) (statusText : String) : String :=
  "Scrobble request failed: " ++ toString status ++ " " ++ statusText

/-- Response interpretation of `Scrobble` (after the POST): non-ok status
throws the HTTP error; a decoded body with `error === 29` and a message
containing `'Rate Limit Exceeded'` throws the daily-limit error; any other
decoded body is returned unchanged. -/
def scrobbleInterpret (status : Nat) (statusText : String)
    (Json : ScrobbleResponse) : Except String ScrobbleResponse :=
  if !respOk status then
    .error (scrobbleHttpMsg status statusText)
  else if Json.error == some 29 && optIncludes Json.message "Rate Limit Exceeded" then
    .error "Scrobbling limit hit (24h cooldown)"
  else
    .ok Json

/-! ## Retry controller (the loop in `Main`) -/

/-- The mutable loop variables of `Main`: `Attempt` and `Limited`. -/
structure LoopState where
  attempt : Nat
  limited : Bool
deriving Repr, DecidableEq

/-- The `Accepted` condition of the loop:
`Result.scrobbles && parseInt(Result.scrobbles['@attr'].accepted, 10) > 0`. -/
def acceptedB (r : ScrobbleResponse) : Bool :=
  match r.scrobbles with
  | none => false
  | some s =>
    match parseIntJS s.attr.accepted with
    | none => false
    | some n => decide (0 < n)

/-- One `Logger` call of a loop iteration, with its payload. -/
inductive LogEvent where
  | success (k : Nat)
  | rejected (k : Nat) (raw : ScrobbleResponse)
  | rateLimited (k : Nat)
  | limitStop
  | transient (k : Nat) (msg : String)
deriving Repr

/-- The effects of one loop iteration: the next state, the `sleep` delay in
milliseconds (0 when no `sleep` runs), and the log line emitted. -/
structure StepOut where
  state : LoopState
  delayMs : Nat
  log : LogEvent

/-- One iteration of the `while (Attempt < Repeat && !Limited)` body, given
the result of the `Scrobble` call (`.ok` = returned, `.error` = threw). -/
def stepMain (st : LoopState) (res : Except String ScrobbleResponse) : StepOut :=
  match res with
  | .ok r =>
    if acceptedB r then
      ⟨⟨st.attempt + 1, st.limited⟩, 1000, .success (st.attempt + 1)⟩
    else
      ⟨st, 2000, .rejected (st.attempt + 1) r⟩
  | .error msg =>
    if strIncludes msg "429" then
      ⟨st, 5000, .rateLimited (st.attempt + 1)⟩
    else if strIncludes msg "Scrobbling limit hit" || strIncludes msg "24h cooldown" then
      ⟨⟨st.attempt, true⟩, 0, .limitStop⟩
    else
      ⟨⟨st.attempt + 1, st.limited⟩, 2000, .transient (st.attempt + 1) msg⟩

/-- Run the `while` loop over a finite trace of submission results.
Returns the final state together with the number of submission attempts
actually consumed from the trace. -/
def runMain (Repeat : Nat) : LoopState → List (Except String ScrobbleResponse) →
    LoopState × Nat
  | st, [] => (st, 0)
  | st, r :: rs =>
    if st.attempt < Repeat && !st.limited then
      let out := runMain Repeat (stepMain st r).state rs
      (out.1, out.2 + 1)
    else (st, 0)

/-- The retry controller phases of the spec's state machine. -/
inductive LoopPhase where
  | Running
  | StoppedByLimit
  | Done
deriving Repr, DecidableEq

/-- Phase of a loop state with respect to the requested repeat count. -/
def loopPhase (Repeat : Nat) (st : LoopState) : LoopPhase :=
  if st.limited then .StoppedByLimit
  else if Repeat ≤ st.attempt then .Done
  else .Running

/-- The final summary line of `Main`. -/
def summaryLine (Limited : Bool) : String :=
  if Limited then "Scrobbling stopped due to last.fm daily limit"
  else "Scrobbling done"

/-- Boolean form of "this submission result was an accepted attempt". -/
def isAcceptedB (res : Except String ScrobbleResponse) : Bool :=
  match res with
  | .ok r => acceptedB r
  | .error _ => false

/-- Number of accepted results in a trace. -/
def countAcc (trace : List (Except String ScrobbleResponse)) : Nat :=
  trace.countP isAcceptedB

/-! ## Helper lemmas -/

theorem hasSubList_append_right (sub b : List Char)
    (h : hasSubList sub b = true) (a : List Char) :
    hasSubList sub (a ++ b) = true := by
  induction a with
  | nil => simpa
  | cons c t ih => simp [hasSubList, ih]

theorem hasSubList_of_isPrefixOf (sub l : List Char)
    (h : sub.isPrefixOf l = true) : hasSubList sub l = true := by
  cases l with
  | nil =>
    cases sub with
    | nil => rfl
    | cons c t => simp [List.isPrefixOf] at h
  | cons c t => simp [hasSubList, h]

/-- Any HTTP-429 error message thrown by `Scrobble` contains `"429"`. -/
theorem strIncludes_httpMsg_429 (stext : String) :
    strIncludes (scrobbleHttpMsg 429 stext) "429" = true := by
  unfold strIncludes scrobbleHttpMsg
  rw [String.data_append, String.data_append, String.data_append, List.append_assoc,
    List.append_assoc]
  apply hasSubList_append_right
  apply hasSubList_of_isPrefixOf
  show List.isPrefixOf ['4', '2', '9'] (['4', '2', '9'] ++ (" ".data ++ stext.data)) = true
  simp [List.isPrefixOf]

theorem clean_data (t : String) :
    (Clean t).data = t.data.filter (fun c => !isCtlChar c) := rfl

theorem clean_idem_aux (t : String) : Clean (Clean t) = Clean t := by
  show String.mk ((t.data.filter (fun c => !isCtlChar c)).filter (fun c => !isCtlChar c)) =
    String.mk (t.data.filter (fun c => !isCtlChar c))
  congr 1
  rw [List.filter_filter]
  apply List.filter_congr
  intro c _
  simp

theorem clean_no_ctl_aux (t : String) (c : Char) (hc : c ∈ (Clean t).data) :
    isCtlChar c = false := by
  rw [clean_data] at hc
  have := (List.mem_filter.mp hc).2
  simpa using this

theorem stepMain_accepted (st : LoopState) (r : ScrobbleResponse)
    (h : acceptedB r = true) :
    stepMain st (Except.ok r) =
      ⟨⟨st.attempt + 1, st.limited⟩, 1000, .success (st.attempt + 1)⟩ := by
  simp [stepMain, h]

theorem stepMain_429 (st : LoopState) (msg : String)
    (h : strIncludes msg "429" = true) :
    stepMain st (Except.error msg) = ⟨st, 5000, .rateLimited (st.attempt + 1)⟩ := by
  simp [stepMain, h]

theorem stepMain_attempt_bounds (st : LoopState)
    (res : Except String ScrobbleResponse) :
    st.attempt ≤ (stepMain st res).state.attempt ∧
      (stepMain st res).state.attempt ≤ st.attempt + 1 := by
  cases res with
  | ok r =>
    by_cases h : acceptedB r = true <;> simp [stepMain, h]
  | error msg =>
    by_cases h1 : strIncludes msg "429" = true
    · simp [stepMain, h1]
    · by_cases h2 : (strIncludes msg "Scrobbling limit hit" ||
        strIncludes msg "24h cooldown") = true <;>
        simp [stepMain, h1, h2]

theorem runMain_nil (Repeat : Nat) (st : LoopState) :
    runMain Repeat st [] = (st, 0) := rfl

theorem runMain_cons (Repeat : Nat) (st : LoopState)
    (r : Except String ScrobbleResponse) (rs : List (Except String ScrobbleResponse)) :
    runMain Repeat st (r :: rs) =
      if st.attempt < Repeat && !st.limited then
        ((runMain Repeat (stepMain st r).state rs).1,
         (runMain Repeat (stepMain st r).state rs).2 + 1)
      else (st, 0) := rfl

theorem runMain_stopped (Repeat : Nat) (st : LoopState)
    (l : List (Except String ScrobbleResponse))
    (h : (st.attempt < Repeat && !st.limited) = false) :
    runMain Repeat st l = (st, 0) := by
  cases l with
  | nil => rfl
  | cons r rs => rw [runMain_cons, if_neg (by simp [h])]

theorem runMain_attempt_le (Repeat : Nat) :
    ∀ (l : List (Except String ScrobbleResponse)) (st : LoopState),
      st.attempt ≤ Repeat → (runMain Repeat st l).1.attempt ≤ Repeat := by
  intro l
  induction l with
  | nil => intro st h; exact h
  | cons r rs ih =>
    intro st h
    rw [runMain_cons]
    by_cases hc : (st.attempt < Repeat && !st.limited) = true
    · rw [if_pos hc]
      have hlt : st.attempt < Repeat := by
        have := hc
        simp [Bool.and_eq_true] at this
        exact this.1
      have hb := (stepMain_attempt_bounds st r).2
      exact ih _ (by omega)
    · rw [if_neg hc]; exact h

theorem runMain_append_full (Repeat : Nat) :
    ∀ (pre : List (Except String ScrobbleResponse)) (st st1 : LoopState),
      runMain Repeat st pre = (st1, pre.length) →
      ∀ suf, runMain Repeat st (pre ++ suf) =
        ((runMain Repeat st1 suf).1,
         pre.length + (runMain Repeat st1 suf).2) := by
  intro pre
  induction pre with
  | nil =>
    intro st st1 h suf
    rw [runMain_nil] at h
    cases h
    simp
  | cons r rs ih =>
    intro st st1 h suf
    rw [runMain_cons] at h
    by_cases hc : (st.attempt < Repeat && !st.limited) = true
    · rw [if_pos hc] at h
      have hfst : (runMain Repeat (stepMain st r).state rs).1 = st1 := by
        have := congrArg Prod.fst h
        simpa using this
      have hsnd : (runMain Repeat (stepMain st r).state rs).2 = rs.length := by
        have := congrArg Prod.snd h
        simp at this
        omega
      have hrs : runMain Repeat (stepMain st r).state rs = (st1, rs.length) := by
        rw [← hfst, ← hsnd]
      have := ih (stepMain st r).state st1 hrs suf
      show runMain Repeat st (r :: (rs ++ suf)) = _
      rw [runMain_cons, if_pos hc, this]
      simp [List.length_cons]
      omega
    · rw [if_neg hc] at h
      have : (0 : Nat) = rs.length + 1 := congrArg Prod.snd h
      omega


theorem isAcceptedB_error (msg : String) :
    isAcceptedB (Except.error msg) = false := rfl

theorem isAcceptedB_ok (r : ScrobbleResponse) :
    isAcceptedB (Except.ok r) = acceptedB r := rfl

theorem countAcc_nil : countAcc [] = 0 := rfl

theorem countAcc_cons (r : Except String ScrobbleResponse)
    (rs : List (Except String ScrobbleResponse)) :
    countAcc (r :: rs) = countAcc rs + (if isAcceptedB r then 1 else 0) := by
  simp [countAcc, List.countP_cons]

theorem loopState_attempt (a : Nat) (b : Bool) : (LoopState.mk a b).attempt = a := rfl

theorem loopState_limited (a : Nat) (b : Bool) : (LoopState.mk a b).limited = b := rfl

theorem stepOut_state (s : LoopState) (d : Nat) (l : LogEvent) :
    (StepOut.mk s d l).state = s := rfl

theorem c1_loop_aux (Repeat : Nat) :
    ∀ (trace : List (Except String ScrobbleResponse)) (st : LoopState),
      st.limited = false → st.attempt ≤ Repeat →
      (∀ r ∈ trace, isAcceptedB r = true ∨
        ∃ stext, r = Except.error (scrobbleHttpMsg 429 stext)) →
      Repeat ≤ st.attempt + countAcc trace →
      (runMain Repeat st trace).1.attempt = Repeat ∧
        (runMain Repeat st trace).1.limited = false ∧
        st.attempt + countAcc (trace.take (runMain Repeat st trace).2) = Repeat := by
  intro trace
  induction trace with
  | nil =>
    intro st hlim hle _ hcnt
    rw [countAcc_nil] at hcnt
    have heq : st.attempt = Repeat := by omega
    rw [runMain_nil]
    exact ⟨heq, hlim, by simp only [List.take_nil, countAcc_nil]; omega⟩
  | cons r rs ih =>
    intro st hlim hle htr hcnt
    rw [countAcc_cons] at hcnt
    have htr' : ∀ x ∈ rs, isAcceptedB x = true ∨
        ∃ stext, x = Except.error (scrobbleHttpMsg 429 stext) :=
      fun x hx => htr x (List.mem_cons_of_mem _ hx)
    by_cases hlt : st.attempt < Repeat
    · have hc : (st.attempt < Repeat && !st.limited) = true := by
        simp [hlt, hlim]
      rw [runMain_cons, if_pos hc]
      rcases htr r (List.mem_cons_self r rs) with hacc | ⟨stext, hrw⟩
      · -- accepted result: attempt advances
        obtain ⟨b, hb⟩ : ∃ b, r = Except.ok b := by
          cases r with
          | ok b => exact ⟨b, rfl⟩
          | error m => rw [isAcceptedB_error] at hacc; exact absurd hacc (by simp)
        subst hb
        have hbacc : acceptedB b = true := by rwa [isAcceptedB_ok] at hacc
        rw [stepMain_accepted st b hbacc]
        simp only [stepOut_state, hlim]
        rw [isAcceptedB_ok, hbacc, if_pos rfl] at hcnt
        have hle' : (LoopState.mk (st.attempt + 1) false).attempt ≤ Repeat := by
          rw [loopState_attempt]; omega
        have hcnt2 : Repeat ≤ (LoopState.mk (st.attempt + 1) false).attempt + countAcc rs := by
          rw [loopState_attempt]; omega
        have H := ih ⟨st.attempt + 1, false⟩ (loopState_limited _ _) hle' htr' hcnt2
        refine ⟨H.1, H.2.1, ?_⟩
        have h3 := H.2.2
        rw [loopState_attempt] at h3
        have hone : (if isAcceptedB (Except.ok b) then 1 else 0) = 1 := by
          rw [isAcceptedB_ok, hbacc]; simp
        simp only [List.take_succ_cons, countAcc_cons, hone]
        omega
      · -- HTTP 429: state unchanged
        subst hrw
        rw [stepMain_429 st _ (strIncludes_httpMsg_429 stext)]
        simp only [stepOut_state]
        rw [isAcceptedB_error] at hcnt
        simp only [Bool.false_eq_true, if_false] at hcnt
        have H := ih st hlim hle htr' (by omega)
        refine ⟨H.1, H.2.1, ?_⟩
        have h3 := H.2.2
        have hzero : (if isAcceptedB (Except.error (scrobbleHttpMsg 429 stext)) then 1
            else 0) = 0 := by
          rw [isAcceptedB_error]; simp
        simp only [List.take_succ_cons, countAcc_cons, hzero]
        omega
    · have heq : st.attempt = Repeat := by omega
      have hc : (st.attempt < Repeat && !st.limited) = false := by
        simp [hlt]
      rw [runMain_stopped Repeat st _ hc]
      exact ⟨heq, hlim, by simp only [List.take_zero, countAcc_nil]; omega⟩

theorem dailyMsg_not_429 :
    strIncludes "Scrobbling limit hit (24h cooldown)" "429" = false := by decide

theorem dailyMsg_has_limit :
    strIncludes "Scrobbling limit hit (24h cooldown)" "Scrobbling limit hit" = true := by decide

theorem stepMain_daily (st : LoopState) :
    stepMain st (Except.error "Scrobbling limit hit (24h cooldown)") =
      ⟨⟨st.attempt, true⟩, 0, .limitStop⟩ := by
  simp [stepMain, dailyMsg_not_429, dailyMsg_has_limit]

theorem respOk_true (status : Nat) (h : 200 ≤ status ∧ status < 300) :
    respOk status = true := by
  simp only [respOk, Bool.and_eq_true, decide_eq_true_eq]
  omega

theorem respOk_false (status : Nat) (h : ¬ (200 ≤ status ∧ status < 300)) :
    respOk status = false := by
  simp only [respOk, Bool.and_eq_false_iff, decide_eq_false_iff_not]
  omega

/-- A concrete accepted submission response:
`{scrobbles:{"@attr":{accepted:"1"}}}`. -/
def acceptedResp : ScrobbleResponse := ⟨some ⟨⟨"1"⟩⟩, none, none⟩

/-- A concrete daily-limit submission response:
`{error:29, message:"Rate Limit Exceeded ..."}`. -/
def limitResp : ScrobbleResponse :=
  ⟨none, some 29, some "Rate Limit Exceeded - too many scrobbles"⟩

/-- A concrete empty (rejected) submission response: `{}`. -/
def emptyResp : ScrobbleResponse := ⟨none, none, none⟩

/-- C1: for every run of the retry controller in which every submission
attempt yields either an accepted result (positive accepted count) or an
HTTP 429 error, a 429 outcome leaves the loop state (in particular the
attempt counter) unchanged, and as soon as the trace supplies the requested
number of accepted results the run ends in `Done` with `Attempt = Repeat`,
having consumed exactly `Repeat` accepted attempts. -/
theorem C1_accepted_and_429_run (Repeat : Nat)
    (trace : List (Except String ScrobbleResponse))
    (htr : ∀ r ∈ trace, isAcceptedB r = true ∨
      ∃ stext, r = Except.error (scrobbleHttpMsg 429 stext))
    (hcnt : Repeat ≤ countAcc trace) :
    (∀ (st : LoopState) (stext : String),
      (stepMain st (Except.error (scrobbleHttpMsg 429 stext))).state = st) ∧
    loopPhase Repeat (runMain Repeat ⟨0, false⟩ trace).1 = LoopPhase.Done ∧
    (runMain Repeat ⟨0, false⟩ trace).1.attempt = Repeat ∧
    countAcc (trace.take (runMain Repeat ⟨0, false⟩ trace).2) = Repeat := by
  have H := c1_loop_aux Repeat trace ⟨0, false⟩ rfl (Nat.zero_le _) htr
    (by rw [loopState_attempt]; omega)
  have h3 : countAcc (trace.take (runMain Repeat ⟨0, false⟩ trace).2) = Repeat := by
    have := H.2.2
    rw [loopState_attempt] at this
    omega
  refine ⟨?_, ?_, H.1, h3⟩
  · intro st stext
    rw [stepMain_429 st _ (strIncludes_httpMsg_429 stext), stepOut_state]
  · rw [loopPhase, if_neg (by rw [H.2.1]; simp), if_pos (by rw [H.1])]

/-- Witness for C1 on a concrete run: repeat count 2, trace accepted /
429 / accepted. -/
theorem C1_accepted_and_429_run_witness :
    loopPhase 2 (runMain 2 ⟨0, false⟩
      [Except.ok acceptedResp,
       Except.error (scrobbleHttpMsg 429 "Too Many Requests"),
       Except.ok acceptedResp]).1 = LoopPhase.Done ∧
    (runMain 2 ⟨0, false⟩
      [Except.ok acceptedResp,
       Except.error (scrobbleHttpMsg 429 "Too Many Requests"),
       Except.ok acceptedResp]).1.attempt = 2 ∧
    countAcc ([Except.ok acceptedResp,
       Except.error (scrobbleHttpMsg 429 "Too Many Requests"),
       Except.ok acceptedResp].take (runMain 2 ⟨0, false⟩
      [Except.ok acceptedResp,
       Except.error (scrobbleHttpMsg 429 "Too Many Requests"),
       Except.ok acceptedResp]).2) = 2 := by
  have H := C1_accepted_and_429_run 2
    [Except.ok acceptedResp,
     Except.error (scrobbleHttpMsg 429 "Too Many Requests"),
     Except.ok acceptedResp]
    (by
      intro r hr
      simp only [List.mem_cons, List.not_mem_nil, or_false] at hr
      rcases hr with h | h | h
      · subst h; left; decide
      · subst h; right; exact ⟨"Too Many Requests", rfl⟩
      · subst h; left; decide)
    (by decide)
  exact ⟨H.2.1, H.2.2.1, H.2.2.2⟩

/-- C2: as soon as one submission attempt yields the daily-limit outcome
(2xx body with error code 29 and the rate-limit message), the loop sets
`Limited`, consumes no further submission attempt from the trace, ends in
`StoppedByLimit`, and the final summary is the daily-limit variant. -/
theorem C2_daily_limit_stops (Repeat : Nat)
    (pre rest : List (Except String ScrobbleResponse)) (st1 : LoopState)
    (status : Nat) (statusText : String) (body : ScrobbleResponse)
    (hpre : runMain Repeat ⟨0, false⟩ pre = (st1, pre.length))
    (hrun : st1.attempt < Repeat) (hlim : st1.limited = false)
    (h2xx : 200 ≤ status ∧ status < 300)
    (herr : body.error = some 29)
    (hmsg : optIncludes body.message "Rate Limit Exceeded" = true) :
    scrobbleInterpret status statusText body =
      Except.error "Scrobbling limit hit (24h cooldown)" ∧
    runMain Repeat ⟨0, false⟩
        (pre ++ Except.error "Scrobbling limit hit (24h cooldown)" :: rest) =
      (⟨st1.attempt, true⟩, pre.length + 1) ∧
    loopPhase Repeat ⟨st1.attempt, true⟩ = LoopPhase.StoppedByLimit ∧
    summaryLine true = "Scrobbling stopped due to last.fm daily limit" := by
  refine ⟨?_, ?_, ?_, rfl⟩
  · rw [scrobbleInterpret, respOk_true status h2xx]
    simp [herr, hmsg]
  · rw [runMain_append_full Repeat pre ⟨0, false⟩ st1 hpre]
    have hstep : runMain Repeat st1
        (Except.error "Scrobbling limit hit (24h cooldown)" :: rest) =
        (⟨st1.attempt, true⟩, 1) := by
      rw [runMain_cons, if_pos (by simp [hrun, hlim]), stepMain_daily, stepOut_state,
        runMain_stopped Repeat ⟨st1.attempt, true⟩ rest (by simp)]
    rw [hstep]
  · rw [loopPhase, if_pos rfl]

/-- Witness for C2: one accepted attempt, then the daily-limit error with
two more results pending; the run stops right there. -/
theorem C2_daily_limit_stops_witness :
    runMain 5 ⟨0, false⟩
      ([Except.ok acceptedResp] ++
        Except.error "Scrobbling limit hit (24h cooldown)" ::
          [Except.ok acceptedResp, Except.ok acceptedResp]) = (⟨1, true⟩, 2) ∧
    scrobbleInterpret 200 "OK" limitResp =
      Except.error "Scrobbling limit hit (24h cooldown)" ∧
    loopPhase 5 ⟨1, true⟩ = LoopPhase.StoppedByLimit := by
  have H := C2_daily_limit_stops 5 [Except.ok acceptedResp]
    [Except.ok acceptedResp, Except.ok acceptedResp] ⟨1, false⟩ 200 "OK" limitResp
    (by decide) (by decide) rfl (by omega) rfl (by decide)
  exact ⟨H.2.1, H.1, H.2.2.1⟩

/-- C3: a 2xx, JSON-decodable, non-daily-limit response whose accepted
count is absent or non-positive is returned unchanged by the submission
client and classified by the loop as a rejected-zero outcome: the raw body
is reported, the 2000 ms delay is used, and neither the attempt counter nor
the limited flag changes. -/
theorem C3_rejected_zero (st : LoopState) (status : Nat) (statusText : String)
    (body : ScrobbleResponse)
    (h2xx : 200 ≤ status ∧ status < 300)
    (habs : body.scrobbles = none ∨
      ∃ s, body.scrobbles = some s ∧
        ∀ n, parseIntJS s.attr.accepted = some n → n ≤ 0)
    (hnd : ¬ (body.error = some 29 ∧
      optIncludes body.message "Rate Limit Exceeded" = true)) :
    scrobbleInterpret status statusText body = Except.ok body ∧
    stepMain st (Except.ok body) =
      ⟨st, 2000, LogEvent.rejected (st.attempt + 1) body⟩ := by
  have hacc : acceptedB body = false := by
    unfold acceptedB
    rcases habs with h | ⟨s, hs, hn⟩
    · rw [h]
    · rw [hs]
      show (match parseIntJS s.attr.accepted with
        | none => false
        | some n => decide (0 < n)) = false
      cases hp : parseIntJS s.attr.accepted with
      | none => rfl
      | some n =>
        have := hn n hp
        simp only [decide_eq_false_iff_not]
        omega
  have hcond : (body.error == some 29 &&
      optIncludes body.message "Rate Limit Exceeded") = false := by
    by_cases he : body.error = some 29
    · have hm : optIncludes body.message "Rate Limit Exceeded" = false := by
        cases hb : optIncludes body.message "Rate Limit Exceeded"
        · rfl
        · exact absurd ⟨he, hb⟩ hnd
      simp [hm]
    · simp [he]
  constructor
  · rw [scrobbleInterpret, respOk_true status h2xx, hcond]
    simp
  · simp [stepMain, hacc]

/-- Witness for C3: a 2xx empty-object response `{}` at attempt 0. -/
theorem C3_rejected_zero_witness :
    scrobbleInterpret 200 "OK" emptyResp = Except.ok emptyResp ∧
    stepMain ⟨0, false⟩ (Except.ok emptyResp) =
      ⟨⟨0, false⟩, 2000, LogEvent.rejected 1 emptyResp⟩ :=
  C3_rejected_zero ⟨0, false⟩ 200 "OK" emptyResp (by omega) (Or.inl rfl) (by simp [emptyResp])

/-- C9: the attempt counter never exceeds the requested repeat count, each
iteration changes it by 0 or 1 (it never decreases), and a run that stops
with the limited flag unset and the loop guard false has
`Attempt = Repeat`. -/
theorem C9_attempt_counter_invariant (Repeat : Nat)
    (trace : List (Except String ScrobbleResponse)) :
    (∀ (st : LoopState) (res : Except String ScrobbleResponse),
      st.attempt ≤ (stepMain st res).state.attempt ∧
      (stepMain st res).state.attempt ≤ st.attempt + 1) ∧
    (runMain Repeat ⟨0, false⟩ trace).1.attempt ≤ Repeat ∧
    ((runMain Repeat ⟨0, false⟩ trace).1.limited = false →
      ¬ (runMain Repeat ⟨0, false⟩ trace).1.attempt < Repeat →
      (runMain Repeat ⟨0, false⟩ trace).1.attempt = Repeat) := by
  have hle := runMain_attempt_le Repeat trace ⟨0, false⟩ (Nat.zero_le _)
  exact ⟨stepMain_attempt_bounds, hle, fun _ h2 => by omega⟩

/-- Witness for C9: a completed 1-repeat run with the limited flag unset. -/
theorem C9_attempt_counter_invariant_witness :
    (runMain 1 ⟨0, false⟩ [Except.ok acceptedResp]).1.attempt ≤ 1 ∧
    (runMain 1 ⟨0, false⟩ [Except.ok acceptedResp]).1.attempt = 1 := by
  have H := C9_attempt_counter_invariant 1 [Except.ok acceptedResp]
  exact ⟨H.2.1, H.2.2 (by decide) (by decide)⟩

/-- C10: the control-character-stripping normalizer is idempotent, and it is
a pure function of its argument. -/
theorem C10_clean_idempotent (t : String) :
    Clean (Clean t) = Clean t ∧ ∀ s, s = t → Clean s = Clean t :=
  ⟨clean_idem_aux t, fun _ hs => by rw [hs]⟩

/-- Witness for C10 on a concrete title containing a control character. -/
theorem C10_clean_idempotent_witness :
    Clean (Clean "a\tb") = Clean "a\tb" ∧ Clean "a\tb" = Clean "a\tb" :=
  ⟨(C10_clean_idempotent "a\tb").1, (C10_clean_idempotent "a\tb").2 "a\tb" rfl⟩

/-- An environment whose four builtins are the identity (used for concrete
evaluation). -/
def idEnv : JsEnv := ⟨id, id, id, id⟩

/-- An environment whose builtins tag their input, making the four candidate
encodings pairwise distinct on any input. -/
def tagEnv : JsEnv :=
  ⟨fun s => "C" ++ s, fun s => "N" ++ s, fun s => "K" ++ s, fun s => "U" ++ s⟩

/-- A catalog that always answers 2xx with the body
`{album:{tracks:{track:[]}}}` (an empty track array). -/
def emptyTrackCatalog : String → String → CatalogResponse :=
  fun _ _ => .response true
    (some (AlbumData.mk (some (AlbumObj.mk (some (TracksObj.mk
      (some (TrackField.array []))))))))

/-- C4 (code-bug exhibit): against a catalog answering
`{album:{tracks:{track:[]}}}`, `Fetch` returns the empty tracklist instead
of failing with `NotFound`: in JS an empty array is truthy, so
`if (Track)` accepts it. The lookup therefore can return an empty
tracklist, contradicting the non-empty invariant. -/
theorem C4_empty_tracklist_bug :
    (fetchTracks idEnv emptyTrackCatalog "Artist" "Album").1 =
      Except.ok ([] : List Track) := rfl

/-- C5: lookup tries the four candidate encodings in the fixed source
order; with a catalog accepting (per the code's condition) only the third
candidate, exactly the first three requests are issued and the third's
tracks are returned; when every candidate is refused the lookup fails with
`NotFound` after exactly four requests. -/
theorem C5_candidate_order (env : JsEnv)
    (catalog : String → String → CatalogResponse) (Artist Album : String) :
    candVariants env Album =
      [env.encodeURIComponent (Clean Album),
       env.encodeURIComponent (env.normalizeNFC (Clean Album)),
       env.encodeURIComponent (env.normalizeNFKC (Clean Album)),
       env.encodeURI (Clean Album)] ∧
    (∀ (tr : Track) (trs : List Track),
      tryCandidate (catalog (env.encodeURIComponent Artist)
        (env.encodeURIComponent (Clean Album))) = none →
      tryCandidate (catalog (env.encodeURIComponent Artist)
        (env.encodeURIComponent (env.normalizeNFC (Clean Album)))) = none →
      tryCandidate (catalog (env.encodeURIComponent Artist)
        (env.encodeURIComponent (env.normalizeNFKC (Clean Album)))) = some (tr :: trs) →
      fetchTracks env catalog Artist Album =
        (Except.ok (tr :: trs),
         [env.encodeURIComponent (Clean Album),
          env.encodeURIComponent (env.normalizeNFC (Clean Album)),
          env.encodeURIComponent (env.normalizeNFKC (Clean Album))])) ∧
    ((∀ v ∈ candVariants env Album,
        tryCandidate (catalog (env.encodeURIComponent Artist) v) = none) →
      fetchTracks env catalog Artist Album =
        (Except.error "Album or tracks not found", candVariants env Album)) := by
  refine ⟨rfl, ?_, ?_⟩
  · intro tr trs h1 h2 h3
    simp only [fetchTracks, candVariants, fetchGo, h1, h2, h3]
  · intro hall
    have h1 := hall (env.encodeURIComponent (Clean Album)) (by simp [candVariants])
    have h2 := hall (env.encodeURIComponent (env.normalizeNFC (Clean Album)))
      (by simp [candVariants])
    have h3 := hall (env.encodeURIComponent (env.normalizeNFKC (Clean Album)))
      (by simp [candVariants])
    have h4 := hall (env.encodeURI (Clean Album)) (by simp [candVariants])
    simp only [fetchTracks, candVariants, fetchGo, h1, h2, h3, h4]

/-- A mock catalog accepting only the third candidate form produced by
`tagEnv` for the album "x". -/
def onlyThirdCatalog : String → String → CatalogResponse :=
  fun _ alb =>
    if alb = "CKx" then
      .response true
        (some (AlbumData.mk (some (AlbumObj.mk (some (TracksObj.mk
          (some (TrackField.single ⟨"T"⟩))))))))
    else .response false none

/-- A mock catalog refusing every request with a non-2xx response. -/
def rejectAllCatalog : String → String → CatalogResponse :=
  fun _ _ => .response false none

/-- Witness for C5: with `tagEnv` the four candidates of album "x" are
"Cx", "CNx", "CKx", "Ux"; a catalog accepting only "CKx" sees exactly three
requests, and a catalog refusing everything sees all four and yields
`NotFound`. -/
theorem C5_candidate_order_witness :
    fetchTracks tagEnv onlyThirdCatalog "a" "x" =
      (Except.ok [⟨"T"⟩], ["Cx", "CNx", "CKx"]) ∧
    fetchTracks tagEnv rejectAllCatalog "a" "x" =
      (Except.error "Album or tracks not found", ["Cx", "CNx", "CKx", "Ux"]) := by
  constructor
  · exact (C5_candidate_order tagEnv onlyThirdCatalog "a" "x").2.1 ⟨"T"⟩ []
      (by decide) (by decide) (by decide)
  · exact (C5_candidate_order tagEnv rejectAllCatalog "a" "x").2.2
      (fun v _ => rfl)

/-- C6: the submission client's response interpretation — every non-2xx
response fails with the HTTP error carrying status and status text; every
2xx body with error code 29 and a message containing "Rate Limit Exceeded"
fails with the daily-limit error; every other 2xx body is returned
unchanged. -/
theorem C6_scrobble_interpretation (status : Nat) (statusText : String)
    (body : ScrobbleResponse) :
    (¬ (200 ≤ status ∧ status < 300) →
      scrobbleInterpret status statusText body =
        Except.error ("Scrobble request failed: " ++ toString status ++ " " ++ statusText)) ∧
    (200 ≤ status ∧ status < 300 → body.error = some 29 →
      (∃ m, body.message = some m ∧ strIncludes m "Rate Limit Exceeded" = true) →
      scrobbleInterpret status statusText body =
        Except.error "Scrobbling limit hit (24h cooldown)") ∧
    (200 ≤ status ∧ status < 300 →
      ¬ (body.error = some 29 ∧ optIncludes body.message "Rate Limit Exceeded" = true) →
      scrobbleInterpret status statusText body = Except.ok body) := by
  refine ⟨?_, ?_, ?_⟩
  · intro h
    rw [scrobbleInterpret, respOk_false status h]
    rfl
  · intro h2xx herr ⟨m, hm, hinc⟩
    rw [scrobbleInterpret, respOk_true status h2xx]
    have : optIncludes body.message "Rate Limit Exceeded" = true := by
      rw [hm, optIncludes, hinc]
    simp [herr, this]
  · intro h2xx hnd
    have hcond : (body.error == some 29 &&
        optIncludes body.message "Rate Limit Exceeded") = false := by
      by_cases he : body.error = some 29
      · have hm : optIncludes body.message "Rate Limit Exceeded" = false := by
          cases hb : optIncludes body.message "Rate Limit Exceeded"
          · rfl
          · exact absurd ⟨he, hb⟩ hnd
        simp [hm]
      · simp [he]
    rw [scrobbleInterpret, respOk_true status h2xx, hcond]
    simp

/-- Witness for C6: a 404, a 2xx daily-limit body, and a 2xx plain body. -/
theorem C6_scrobble_interpretation_witness :
    scrobbleInterpret 404 "Not Found" emptyResp =
      Except.error "Scrobble request failed: 404 Not Found" ∧
    scrobbleInterpret 200 "OK" limitResp =
      Except.error "Scrobbling limit hit (24h cooldown)" ∧
    scrobbleInterpret 204 "No Content" acceptedResp = Except.ok acceptedResp := by
  refine ⟨?_, ?_, ?_⟩
  · exact (C6_scrobble_interpretation 404 "Not Found" emptyResp).1 (by omega)
  · exact (C6_scrobble_interpretation 200 "OK" limitResp).2.1 (by omega) rfl
      ⟨"Rate Limit Exceeded - too many scrobbles", rfl, by decide⟩
  · exact (C6_scrobble_interpretation 204 "No Content" acceptedResp).2.2 (by omega)
      (by simp [acceptedResp])

/-- C8: every one of the four lookup candidates is computed from the
cleaned title (so the candidate list is unchanged if the title is cleaned
first), and the cleaned title contains no ASCII control character
(0x00–0x1F or 0x7F). -/
theorem C8_control_chars_removed (env : JsEnv) (Album : String) :
    candVariants env Album = candVariants env (Clean Album) ∧
    ∀ c ∈ (Clean Album).data, ¬ (c.toNat ≤ 0x1F ∨ c.toNat = 0x7F) := by
  constructor
  · unfold candVariants
    rw [clean_idem_aux]
  · intro c hc
    have h := clean_no_ctl_aux Album c hc
    simp only [isCtlChar, Bool.or_eq_false_iff, decide_eq_false_iff_not,
      beq_eq_false_iff_ne, ne_eq] at h
    rintro (h1 | h2)
    · omega
    · exact h.2 h2

/-- Witness for C8 on a concrete title with an embedded control character. -/
theorem C8_control_chars_removed_witness :
    candVariants tagEnv "a\u0000b" = candVariants tagEnv (Clean "a\u0000b") ∧
    ¬ ('a'.toNat ≤ 0x1F ∨ 'a'.toNat = 0x7F) :=
  ⟨(C8_control_chars_removed tagEnv "a\u0000b").1,
   (C8_control_chars_removed tagEnv "a\u0000b").2 'a' (by decide)⟩

theorem list_get4_succ (a b c d : FormField) (l : List FormField) (m : Nat) :
    (a :: b :: c :: d :: l).get? (m + 4) = l.get? m := rfl

theorem scrobbleFieldsGo_timestamp (Artist Album : String) (Now : Nat) :
    ∀ (ts : List Track) (i j : Nat), j < ts.length →
      (scrobbleFieldsGo Artist Album Now i ts).get? (4 * j + 3) =
        some ⟨"timestamp[" ++ toString (i + j) ++ "]", toString (Now + (i + j))⟩ := by
  intro ts
  induction ts with
  | nil => intro i j h; simp at h
  | cons t rest ih =>
    intro i j h
    cases j with
    | zero => rfl
    | succ j' =>
      have hidx : 4 * (j' + 1) + 3 = (4 * j' + 3) + 4 := by ring
      rw [hidx]
      have hlen : j' < rest.length := by
        simp only [List.length_cons] at h
        omega
      have hrec := ih (i + 1) j' hlen
      have harith : i + 1 + j' = i + (j' + 1) := by omega
      rw [harith] at hrec
      calc (scrobbleFieldsGo Artist Album Now i (t :: rest)).get? (4 * j' + 3 + 4)
          = (scrobbleFieldsGo Artist Album Now (i + 1) rest).get? (4 * j' + 3) := rfl
        _ = _ := hrec

/-- C7: in a batch built for `n` tracks with base timestamp `Now`, the track
at position `j` is submitted with `timestamp[j] = Now + j`, and the batch's
timestamps `Now, Now+1, ..., Now+n-1` are strictly increasing, pairwise
distinct, consecutive integers. -/
theorem C7_batch_timestamps (Artist Album : String) (Tracks : List Track)
    (Now : Nat) :
    (∀ j, j < Tracks.length →
      (buildScrobbleBody Artist Album Tracks Now).get? (4 * j + 3) =
        some ⟨"timestamp[" ++ toString j ++ "]", toString (Now + j)⟩) ∧
    List.Pairwise (· < ·) (batchTimestamps Now Tracks.length) ∧
    (batchTimestamps Now Tracks.length).Nodup ∧
    (∀ j, j < Tracks.length →
      (batchTimestamps Now Tracks.length).get? j = some (Now + j)) ∧
    (∀ j, j + 1 < Tracks.length →
      (batchTimestamps Now Tracks.length).get? (j + 1) = some (Now + j + 1)) := by
  have hpair : List.Pairwise (· < ·) (batchTimestamps Now Tracks.length) := by
    unfold batchTimestamps
    refine (List.pairwise_map).mpr ?_
    exact (List.pairwise_lt_range _).imp (fun h => Nat.add_lt_add_left h Now)
  have hget : ∀ j, j < Tracks.length →
      (batchTimestamps Now Tracks.length).get? j = some (Now + j) := by
    intro j hj
    unfold batchTimestamps
    rw [List.get?_map, List.get?_range hj]
    rfl
  refine ⟨?_, hpair, ?_, hget, ?_⟩
  · intro j hj
    have := scrobbleFieldsGo_timestamp Artist Album Now Tracks 0 j hj
    simpa using this
  · exact hpair.imp (fun h => Nat.ne_of_lt h)
  · intro j hj
    exact hget (j + 1) hj

/-- A concrete three-track tracklist. -/
def tracks3 : List Track := [⟨"A"⟩, ⟨"B"⟩, ⟨"C"⟩]

/-- Witness for C7 on a three-track batch with base timestamp 100. -/
theorem C7_batch_timestamps_witness :
    (buildScrobbleBody "ar" "al" tracks3 100).get? 11 =
      some ⟨"timestamp[2]", "102"⟩ ∧
    (batchTimestamps 100 tracks3.length).get? 1 = some 101 ∧
    (batchTimestamps 100 tracks3.length).get? 2 = some 102 := by
  have H := C7_batch_timestamps "ar" "al" tracks3 100
  refine ⟨?_, ?_, ?_⟩
  · exact H.1 2 (by decide)
  · exact H.2.2.2.1 1 (by decide)
  · exact H.2.2.2.2 1 (by decide)
